import Mathlib

/-!
The cquery indexer core (`src/indexer.h`).

A shallow embedding of the identity and cross-reference core of the indexer:
typed identifiers, the `Location` codec, references, the definition records
and the per-file index.  C++ `int` fields are `Int`, `uint64_t` ids are `Nat`,
`std::string` is `String`, `std::vector` is `List`, `optional` is `Option`,
and a constructor guarded by `assert` returns `Option` (`none` = the assertion
fails).
-/

namespace Indexer

/-! ## Typed identifiers -/

/-- The kinds an identifier can be scoped to.  In the source the tag of an
`Id<T>` is the (forward-declared) record type itself: `_FakeFileType`,
`IndexedTypeDef`, `IndexedFuncDef`, `IndexedVarDef`. -/
inductive Kind where
  | _FakeFileType
  | IndexedTypeDef
  | IndexedFuncDef
  | IndexedVarDef
deriving DecidableEq, Repr

/-- Embeds `template<typename T> struct Id { uint64_t id; }`; the parameter is the
phantom kind tag, the raw number is an unsigned 64-bit value. -/
structure Id (T : Kind) where
  id : Nat
deriving DecidableEq, Repr

/-- Embeds `Id::operator==`: `id == other.id`.  The header also has a free
template `operator==` on `Id<T>` whose assertion reads a member `group` that
`Id` does not have; it is never instantiated, since overload resolution
prefers the non-template member, so `a == b` is this function. -/
def Id.eq {T : Kind} (self other : Id T) : Bool :=
  decide (self.id = other.id)

/-- Embeds `Id::operator<`: `id < other.id`. -/
def Id.lt {T : Kind} (self other : Id T) : Bool :=
  decide (self.id < other.id)

/-- Embeds `using FileId = Id<_FakeFileType>`. -/
abbrev FileId := Id Kind._FakeFileType

/-- Embeds `using TypeId = Id<IndexedTypeDef>`. -/
abbrev TypeId := Id Kind.IndexedTypeDef

/-- Embeds `using FuncId = Id<IndexedFuncDef>`. -/
abbrev FuncId := Id Kind.IndexedFuncDef

/-- Embeds `using VarId = Id<IndexedVarDef>`. -/
abbrev VarId := Id Kind.IndexedVarDef

/-! ## `std::to_string(int)` -/

/-- Embeds `std::to_string(int)`: the decimal rendering, with a leading `-` for a
negative value. -/
def to_string (v : Int) : String :=
  match v with
  | Int.ofNat n => Nat.repr n
  | Int.negSucc n => "-" ++ Nat.repr (n + 1)

/-! ## Location -/

/-- Embeds `struct Location { bool interesting; int raw_file_id; int line; int column; }`. -/
structure Location where
  interesting : Bool
  raw_file_id : Int
  line : Int
  column : Int
deriving DecidableEq, Repr

/-- Embeds `Location::Location()`: the default-constructed (sentinel) location. -/
def Location.default : Location :=
  { interesting := false, raw_file_id := -1, line := -1, column := -1 }

/-- Conversion of an unsigned value to `int`: two's-complement truncation to
32 bits. -/
def toInt32 (n : Nat) : Int :=
  if n % 2 ^ 32 < 2 ^ 31 then ((n % 2 ^ 32 : Nat) : Int) else ((n % 2 ^ 32 : Nat) : Int) - 2 ^ 32

/-- Embeds `Location::Location(bool interesting, FileId file, uint32_t line,
uint32_t column)`: each argument is stored in an `int` member. -/
def Location.new (interesting : Bool) (file : FileId) (line column : Nat) : Location :=
  { interesting := interesting, raw_file_id := toInt32 file.id, line := toInt32 line,
    column := toInt32 column }

/-- Embeds `Location::file_id`: `FileId(raw_file_id)`, the `int` converted to
`uint64_t`. -/
def Location.file_id (self : Location) : FileId :=
  ⟨(self.raw_file_id % 2 ^ 64).toNat⟩

/-- Embeds `Location::ToString`: the result string is built by successive `+=`. -/
def Location.ToString (self : Location) : String :=
  let result : String := ""
  let result := if self.interesting then result.push '*' else result
  let result := result ++ to_string self.raw_file_id
  let result := result.push ':'
  let result := result ++ to_string self.line
  let result := result.push ':'
  let result := result ++ to_string self.column
  result

/-- Embeds `Location::IsEqualTo`: compares file, line and column. -/
def Location.IsEqualTo (self o : Location) : Bool :=
  decide (self.raw_file_id = o.raw_file_id) &&
  decide (self.line = o.line) &&
  decide (self.column = o.column)

/-- Embeds `Location::operator==`: `return IsEqualTo(o);`. -/
def Location.eq (self o : Location) : Bool :=
  self.IsEqualTo o

/-- Embeds `Location::operator<`: the conjunction of the four strict comparisons. -/
def Location.lt (self o : Location) : Bool :=
  decide (self.interesting < o.interesting) &&
  decide (self.raw_file_id < o.raw_file_id) &&
  decide (self.line < o.line) &&
  decide (self.column < o.column)

/-- Embeds `Location::WithInteresting`: a copy with the flag replaced. -/
def Location.WithInteresting (self : Location) (interesting : Bool) : Location :=
  { self with interesting := interesting }

/-! ## Reading a location text back -/

/-- The value of a decimal digit character. -/
def digitVal (c : Char) : Nat := c.toNat - 48

/-- The number written by a run of decimal digits, most significant first. -/
def parseNat (cs : List Char) : Nat :=
  cs.foldl (fun acc c => acc * 10 + digitVal c) 0

/-- Reads a signed decimal number: an optional `-`, then a non-empty run of
digits; anything else is rejected. -/
def parseInt (cs : List Char) : Option Int :=
  match cs with
  | [] => none
  | c :: ds =>
    if c = '-' then
      if ds ≠ [] ∧ ds.all Char.isDigit = true then some (-(parseNat ds : Int)) else none
    else if (c :: ds).all Char.isDigit = true then some (parseNat (c :: ds) : Int) else none

/-- The characters in front of the first `:`. -/
def untilColon (cs : List Char) : List Char :=
  cs.takeWhile (fun c => c != ':')

/-- The characters behind the first `:`. -/
def afterColon (cs : List Char) : List Char :=
  (cs.dropWhile (fun c => c != ':')).drop 1

/-- A decoder for the text encoding `[*]<file-id>:<line>:<column>` (the
inverse the specification asks for; the source has only the encoder). -/
def Location.decode (s : String) : Option Location :=
  let cs := s.data
  let interesting := decide (cs.head? = some '*')
  let cs := if interesting then cs.drop 1 else cs
  let file := untilColon cs
  let cs := afterColon cs
  let line := untilColon cs
  let column := afterColon cs
  match parseInt file, parseInt line, parseInt column with
  | some f, some l, some c => some ⟨interesting, f, l, c⟩
  | _, _, _ => none

/-! ## References -/

/-- Embeds `template<typename T> struct Ref { Id<T> id; Location loc; }`. -/
structure Ref (T : Kind) where
  id : Id T
  loc : Location
deriving DecidableEq, Repr

/-- Embeds `Ref::operator==`: `id == other.id && loc == other.loc`. -/
def Ref.eq {T : Kind} (self other : Ref T) : Bool :=
  self.id.eq other.id && self.loc.eq other.loc

/-- Embeds `Ref::operator!=`: `!(*this == other)`. -/
def Ref.ne {T : Kind} (self other : Ref T) : Bool :=
  !(self.eq other)

/-- Embeds `Ref::operator<`: `id < other.id && loc < other.loc`. -/
def Ref.lt {T : Kind} (self other : Ref T) : Bool :=
  self.id.lt other.id && self.loc.lt other.loc

/-- Embeds the free template `operator==(const Ref<T>& a, const Ref<T>& b)`:
`a.id == b.id && a.loc == b.loc`. -/
def Ref.eq_free {T : Kind} (a b : Ref T) : Bool :=
  a.id.eq b.id && a.loc.eq b.loc

/-- Embeds the free template `operator!=(const Ref<T>& a, const Ref<T>& b)`:
`!(a == b)`. -/
def Ref.ne_free {T : Kind} (a b : Ref T) : Bool :=
  !(Ref.eq_free a b)

/-- Embeds `operator==` of `optional<T>`: two absent values are equal, an
absent and a present one are not, two present ones are compared with the
`operator==` of `T`. -/
def optional_eq {α : Type} (eq : α → α → Bool) (x y : Option α) : Bool :=
  match x, y with
  | none, none => true
  | some a, some b => eq a b
  | _, _ => false

/-- Embeds `operator==` of `std::vector<T>`: equal sizes, and the elements
equal position by position under the `operator==` of `T`. -/
def vector_eq {α : Type} (eq : α → α → Bool) (xs ys : List α) : Bool :=
  decide (xs.length = ys.length) && (xs.zip ys).all (fun p => eq p.1 p.2)

/-- Embeds `using TypeRef = Ref<IndexedTypeDef>`. -/
abbrev TypeRef := Ref Kind.IndexedTypeDef

/-- Embeds `using FuncRef = Ref<IndexedFuncDef>`. -/
abbrev FuncRef := Ref Kind.IndexedFuncDef

/-- Embeds `using VarRef = Ref<IndexedVarDef>`. -/
abbrev VarRef := Ref Kind.IndexedVarDef

/-! ## Definition data and records -/

/-- Embeds `struct TypeDefDefinitionData<>` (default template arguments). -/
structure TypeDefDefinitionData where
  usr : String
  short_name : String
  qualified_name : String
  definition : Option Location
  alias_of : Option TypeId
  parents : List TypeId
  types : List TypeId
  funcs : List FuncId
  vars : List VarId
deriving DecidableEq, Repr

/-- Embeds `TypeDefDefinitionData(const std::string& usr) : usr(usr) {}`: no
assertion; every other member is default-initialised. -/
def TypeDefDefinitionData.new (usr : String) : TypeDefDefinitionData :=
  { usr := usr, short_name := "", qualified_name := "", definition := none,
    alias_of := none, parents := [], types := [], funcs := [], vars := [] }

/-- Embeds `struct FuncDefDefinitionData<>` (default template arguments). -/
structure FuncDefDefinitionData where
  usr : String
  short_name : String
  qualified_name : String
  definition : Option Location
  declaring_type : Option TypeId
  base : Option FuncId
  locals : List VarId
  callees : List FuncRef
deriving DecidableEq, Repr

/-- Embeds `FuncDefDefinitionData(const std::string& usr) : usr(usr)
{ assert(usr.size() > 0); }`; `none` is the failed assertion
(`size() > 0` is non-emptiness, here of the character list). -/
def FuncDefDefinitionData.new (usr : String) : Option FuncDefDefinitionData :=
  if usr.length > 0 then
    some
      { usr := usr, short_name := "", qualified_name := "", definition := none,
        declaring_type := none, base := none, locals := [], callees := [] }
  else none

/-- Embeds `struct VarDefDefinitionData<>` (default template arguments). -/
structure VarDefDefinitionData where
  usr : String
  short_name : String
  qualified_name : String
  declaration : Option Location
  definition : Option Location
  variable_type : Option TypeId
  declaring_type : Option TypeId
deriving DecidableEq, Repr

/-- Embeds `VarDefDefinitionData(const std::string& usr) : usr(usr) {}`: no
assertion. -/
def VarDefDefinitionData.new (usr : String) : VarDefDefinitionData :=
  { usr := usr, short_name := "", qualified_name := "", declaration := none,
    definition := none, variable_type := none, declaring_type := none }

/-- Embeds `struct IndexedTypeDef`. -/
structure IndexedTypeDef where
  «def» : TypeDefDefinitionData
  id : TypeId
  derived : List TypeId
  uses : List Location
  is_bad_def : Bool
deriving DecidableEq, Repr

/-- Embeds `struct IndexedFuncDef`. -/
structure IndexedFuncDef where
  «def» : FuncDefDefinitionData
  id : FuncId
  declarations : List Location
  derived : List FuncId
  callers : List FuncRef
  uses : List Location
  is_bad_def : Bool
deriving DecidableEq, Repr

/-- Embeds `IndexedFuncDef(FuncId id, const std::string& usr) : id(id), def(usr)
{ assert(usr.size() > 0); }`: the member `def` is constructed first (its own
assertion), the remaining members take their defaults (`is_bad_def = true`),
then the body asserts. -/
def IndexedFuncDef.new (id : FuncId) (usr : String) : Option IndexedFuncDef :=
  match FuncDefDefinitionData.new usr with
  | none => none
  | some d =>
    if usr.length > 0 then
      some
        { «def» := d, id := id, declarations := [], derived := [], callers := [],
          uses := [], is_bad_def := true }
    else none

/-- Embeds `struct IndexedVarDef`. -/
structure IndexedVarDef where
  «def» : VarDefDefinitionData
  id : VarId
  uses : List Location
  is_bad_def : Bool
deriving DecidableEq, Repr

/-- Embeds `IndexedVarDef(VarId id, const std::string& usr) : id(id), def(usr)
{ assert(usr.size() > 0); }`. -/
def IndexedVarDef.new (id : VarId) (usr : String) : Option IndexedVarDef :=
  let d := VarDefDefinitionData.new usr
  if usr.length > 0 then
    some { «def» := d, id := id, uses := [], is_bad_def := true }
  else none

/-- Modelled from the spec: the constructor `IndexedTypeDef(TypeId, const
std::string&)` is only declared in the header, its body is not part of the
sources at hand.  A new record is a placeholder, and a type identity string
may be empty (anonymous types), so nothing is rejected; the members take the
defaults the header gives them (`is_bad_def = true`). -/
def IndexedTypeDef.new (id : TypeId) (usr : String) : IndexedTypeDef :=
  { «def» := TypeDefDefinitionData.new usr, id := id, derived := [], uses := [],
    is_bad_def := true }

/-- Modelled from the spec: `IndexedTypeDef::AddUsage(Location, bool
insert_if_not_present)` is only declared in the header.  With the flag false
the location is always appended to the use list; with the flag true it is
appended only if no use already in the list is equal to it under location
equality. -/
def IndexedTypeDef.AddUsage (self : IndexedTypeDef) (loc : Location)
    (insert_if_not_present : Bool) : IndexedTypeDef :=
  if insert_if_not_present && self.uses.any (fun u => u.eq loc) then self
  else { self with uses := self.uses ++ [loc] }

/-! ## Comparison of definition data and of records -/

/-- Embeds `TypeDefDefinitionData::operator==`: the conjunction of the nine
member comparisons. -/
def TypeDefDefinitionData.eq (self other : TypeDefDefinitionData) : Bool :=
  decide (self.usr = other.usr) &&
  decide (self.short_name = other.short_name) &&
  decide (self.qualified_name = other.qualified_name) &&
  optional_eq Location.eq self.definition other.definition &&
  optional_eq Id.eq self.alias_of other.alias_of &&
  vector_eq Id.eq self.parents other.parents &&
  vector_eq Id.eq self.types other.types &&
  vector_eq Id.eq self.funcs other.funcs &&
  vector_eq Id.eq self.vars other.vars

/-- Embeds `TypeDefDefinitionData::operator!=`: `!(*this == other)`. -/
def TypeDefDefinitionData.ne (self other : TypeDefDefinitionData) : Bool :=
  !(self.eq other)

/-- Embeds `FuncDefDefinitionData::operator==`: the conjunction of the eight
member comparisons; the callees are constant `Ref`s, compared with the free
`operator==`. -/
def FuncDefDefinitionData.eq (self other : FuncDefDefinitionData) : Bool :=
  decide (self.usr = other.usr) &&
  decide (self.short_name = other.short_name) &&
  decide (self.qualified_name = other.qualified_name) &&
  optional_eq Location.eq self.definition other.definition &&
  optional_eq Id.eq self.declaring_type other.declaring_type &&
  optional_eq Id.eq self.base other.base &&
  vector_eq Id.eq self.locals other.locals &&
  vector_eq Ref.eq_free self.callees other.callees

/-- Embeds `FuncDefDefinitionData::operator!=`: `!(*this == other)`. -/
def FuncDefDefinitionData.ne (self other : FuncDefDefinitionData) : Bool :=
  !(self.eq other)

/-- Embeds `VarDefDefinitionData::operator==`: the conjunction of the seven
member comparisons. -/
def VarDefDefinitionData.eq (self other : VarDefDefinitionData) : Bool :=
  decide (self.usr = other.usr) &&
  decide (self.short_name = other.short_name) &&
  decide (self.qualified_name = other.qualified_name) &&
  optional_eq Location.eq self.declaration other.declaration &&
  optional_eq Location.eq self.definition other.definition &&
  optional_eq Id.eq self.variable_type other.variable_type &&
  optional_eq Id.eq self.declaring_type other.declaring_type

/-- Embeds `VarDefDefinitionData::operator!=`: `!(*this == other)`. -/
def VarDefDefinitionData.ne (self other : VarDefDefinitionData) : Bool :=
  !(self.eq other)

/-- Lexicographic comparison of two character sequences: the first position
where they differ decides, and a proper prefix is smaller. -/
def lex_lt : List Char → List Char → Bool
  | _, [] => false
  | [], _ :: _ => true
  | a :: as, b :: bs => if a < b then true else if b < a then false else lex_lt as bs

/-- Embeds `operator<` of `std::string`: lexicographic comparison of the
characters. -/
def string_lt (s t : String) : Bool :=
  lex_lt s.data t.data

/-- Embeds `IndexedTypeDef::operator<`: `def.usr < other.def.usr`. -/
def IndexedTypeDef.lt (self other : IndexedTypeDef) : Bool :=
  string_lt self.«def».usr other.«def».usr

/-- Embeds `std::hash<IndexedTypeDef>`: `hash<string>()(k.def.usr)`; the
standard library's string hash is the parameter `hash_string`. -/
def IndexedTypeDef.hash (hash_string : String → Nat) (k : IndexedTypeDef) : Nat :=
  hash_string k.«def».usr

/-- Embeds `IndexedFuncDef::operator<`: `def.usr < other.def.usr`. -/
def IndexedFuncDef.lt (self other : IndexedFuncDef) : Bool :=
  string_lt self.«def».usr other.«def».usr

/-- Embeds `std::hash<IndexedFuncDef>`: `hash<string>()(k.def.usr)`. -/
def IndexedFuncDef.hash (hash_string : String → Nat) (k : IndexedFuncDef) : Nat :=
  hash_string k.«def».usr

/-- Embeds `IndexedVarDef::operator<`: `def.usr < other.def.usr`. -/
def IndexedVarDef.lt (self other : IndexedVarDef) : Bool :=
  string_lt self.«def».usr other.«def».usr

/-- Embeds `std::hash<IndexedVarDef>`: `hash<string>()(k.def.usr)`. -/
def IndexedVarDef.hash (hash_string : String → Nat) (k : IndexedVarDef) : Nat :=
  hash_string k.«def».usr

/-! ## The per-file index -/

/-- Lookup in a `std::unordered_map`, kept as an association list with at most
one entry per key. -/
def mapFind {K V : Type} [DecidableEq K] (m : List (K × V)) (k : K) : Option V :=
  match m with
  | [] => none
  | (k', v) :: rest => if k' = k then some v else mapFind rest k

/-- The assignment `m[k] = v` on a `std::unordered_map`. -/
def mapSet {K V : Type} [DecidableEq K] (m : List (K × V)) (k : K) (v : V) : List (K × V) :=
  (k, v) :: m.filter (fun p => decide (p.1 ≠ k))

/-- Embeds `struct IdCache`: the four identity-string to id maps and their inverses. -/
structure IdCache where
  file_path_to_file_id : List (String × FileId)
  usr_to_type_id : List (String × TypeId)
  usr_to_func_id : List (String × FuncId)
  usr_to_var_id : List (String × VarId)
  file_id_to_file_path : List (FileId × String)
  type_id_to_usr : List (TypeId × String)
  func_id_to_usr : List (FuncId × String)
  var_id_to_usr : List (VarId × String)
deriving DecidableEq, Repr

/-- Embeds `struct IndexedFile`. -/
structure IndexedFile where
  id_cache : IdCache
  path : String
  types : List IndexedTypeDef
  funcs : List IndexedFuncDef
  vars : List IndexedVarDef
deriving DecidableEq, Repr

/-- Modelled from the spec: `IndexedFile::ToTypeId(const std::string&)` is only
declared in the header.  It returns the existing identifier if the identity
string was seen before; otherwise it allocates the next identifier (the
position of the new record in the append-only store), inserts a new
placeholder record and remembers the pair in both directions. -/
def IndexedFile.ToTypeId (self : IndexedFile) (usr : String) : TypeId × IndexedFile :=
  match mapFind self.id_cache.usr_to_type_id usr with
  | some id => (id, self)
  | none =>
    let id : TypeId := ⟨self.types.length⟩
    (id,
      { self with
        types := self.types ++ [IndexedTypeDef.new id usr]
        id_cache :=
          { self.id_cache with
            usr_to_type_id := mapSet self.id_cache.usr_to_type_id usr id
            type_id_to_usr := mapSet self.id_cache.type_id_to_usr id usr } })

/-- Modelled from the spec: `IndexedFile::ToFuncId(const std::string&)` is only
declared in the header.  As `ToTypeId`, except that creating the record for an
empty identity string is rejected (`none`) and nothing is allocated. -/
def IndexedFile.ToFuncId (self : IndexedFile) (usr : String) : Option (FuncId × IndexedFile) :=
  match mapFind self.id_cache.usr_to_func_id usr with
  | some id => some (id, self)
  | none =>
    let id : FuncId := ⟨self.funcs.length⟩
    match IndexedFuncDef.new id usr with
    | none => none
    | some r =>
      some (id,
        { self with
          funcs := self.funcs ++ [r]
          id_cache :=
            { self.id_cache with
              usr_to_func_id := mapSet self.id_cache.usr_to_func_id usr id
              func_id_to_usr := mapSet self.id_cache.func_id_to_usr id usr } })

/-- Modelled from the spec: `IndexedFile::ToVarId(const std::string&)` is only
declared in the header.  As `ToFuncId`, for variables. -/
def IndexedFile.ToVarId (self : IndexedFile) (usr : String) : Option (VarId × IndexedFile) :=
  match mapFind self.id_cache.usr_to_var_id usr with
  | some id => some (id, self)
  | none =>
    let id : VarId := ⟨self.vars.length⟩
    match IndexedVarDef.new id usr with
    | none => none
    | some r =>
      some (id,
        { self with
          vars := self.vars ++ [r]
          id_cache :=
            { self.id_cache with
              usr_to_var_id := mapSet self.id_cache.usr_to_var_id usr id
              var_id_to_usr := mapSet self.id_cache.var_id_to_usr id usr } })

/-- Modelled from the spec: the constructor `IndexedFile(const std::string&
path)` is only declared in the header; a fresh index has empty stores and
empty maps. -/
def IndexedFile.new (path : String) : IndexedFile :=
  { id_cache :=
      { file_path_to_file_id := [], usr_to_type_id := [], usr_to_func_id := [],
        usr_to_var_id := [], file_id_to_file_path := [], type_id_to_usr := [],
        func_id_to_usr := [], var_id_to_usr := [] }
    path := path, types := [], funcs := [], vars := [] }

/-! ## Decimal rendering: auxiliary facts -/

theorem digitChar_isDigit (m : Nat) (h : m < 10) : (Nat.digitChar m).isDigit = true := by
  interval_cases m <;> decide

theorem digitVal_digitChar (m : Nat) (h : m < 10) : digitVal (Nat.digitChar m) = m := by
  interval_cases m <;> decide

theorem parseNat_snoc (ds : List Char) (d : Char) :
    parseNat (ds ++ [d]) = parseNat ds * 10 + digitVal d := by
  simp [parseNat, List.foldl_append]

/-- The accumulator of the digit loop is only ever extended at the front. -/
theorem toDigitsCore_acc (fuel : Nat) (n : Nat) (acc : List Char) :
    Nat.toDigitsCore 10 fuel n acc = Nat.toDigitsCore 10 fuel n [] ++ acc := by
  induction fuel generalizing n acc with
  | zero => simp [Nat.toDigitsCore]
  | succ k ih =>
    unfold Nat.toDigitsCore
    by_cases hq : n / 10 = 0
    · simp [hq]
    · simp only [hq, if_false]
      rw [ih (n / 10) (Nat.digitChar (n % 10) :: acc), ih (n / 10) [Nat.digitChar (n % 10)]]
      simp

/-- One round of the digit loop: the digits of the quotient, then the last digit. -/
theorem toDigitsCore_step (k n : Nat) :
    Nat.toDigitsCore 10 (k + 1) n [] =
      (if n / 10 = 0 then [] else Nat.toDigitsCore 10 k (n / 10) []) ++
        [Nat.digitChar (n % 10)] := by
  conv_lhs => unfold Nat.toDigitsCore
  by_cases hq : n / 10 = 0
  · simp [hq]
  · simp only [hq, if_false]
    exact toDigitsCore_acc k (n / 10) [Nat.digitChar (n % 10)]

theorem toDigitsCore_all_isDigit (fuel n : Nat) :
    ∀ c ∈ Nat.toDigitsCore 10 fuel n [], c.isDigit = true := by
  induction fuel generalizing n with
  | zero => simp [Nat.toDigitsCore]
  | succ k ih =>
    intro c hc
    rw [toDigitsCore_step, List.mem_append, List.mem_singleton] at hc
    rcases hc with hc | rfl
    · by_cases hq : n / 10 = 0
      · simp [hq] at hc
      · rw [if_neg hq] at hc
        exact ih _ c hc
    · exact digitChar_isDigit _ (Nat.mod_lt _ (by decide))

theorem parseNat_toDigitsCore (fuel n : Nat) (h : n < fuel) :
    parseNat (Nat.toDigitsCore 10 fuel n []) = n := by
  induction fuel generalizing n with
  | zero => omega
  | succ k ih =>
    rw [toDigitsCore_step, parseNat_snoc, digitVal_digitChar _ (Nat.mod_lt _ (by decide))]
    by_cases hq : n / 10 = 0
    · rw [if_pos hq]
      simp only [parseNat, List.foldl_nil]
      omega
    · rw [if_neg hq, ih (n / 10) (by omega)]
      omega

/-- The decimal text of a natural number: non-empty, digits only, and it reads
back as the number. -/
theorem repr_spec (n : Nat) :
    (Nat.repr n).data ≠ [] ∧ (∀ c ∈ (Nat.repr n).data, c.isDigit = true) ∧
      parseNat (Nat.repr n).data = n := by
  have hdata : (Nat.repr n).data = Nat.toDigitsCore 10 (n + 1) n [] := by
    simp [Nat.repr, Nat.toDigits, List.asString]
  rw [hdata]
  refine ⟨?_, toDigitsCore_all_isDigit _ _, parseNat_toDigitsCore _ _ (Nat.lt_succ_self n)⟩
  rw [toDigitsCore_step]
  simp

theorem isDigit_ne (c : Char) (h : c.isDigit = true) : c ≠ ':' ∧ c ≠ '-' ∧ c ≠ '*' := by
  refine ⟨?_, ?_, ?_⟩ <;> (rintro rfl; revert h; decide)

/-- The text of a number reads back as that number, holds no `:` and does not
start with `*`. -/
theorem to_string_spec (v : Int) :
    parseInt (to_string v).data = some v ∧
      (∀ c ∈ (to_string v).data, c ≠ ':') ∧
      (to_string v).data.head? ≠ some '*' := by
  cases v with
  | ofNat n =>
    obtain ⟨h1, h2, h3⟩ := repr_spec n
    simp only [to_string]
    generalize (Nat.repr n).data = ds at h1 h2 h3
    cases ds with
    | nil => exact absurd rfl h1
    | cons c ds =>
      have hc := isDigit_ne c (h2 c (List.mem_cons_self _ _))
      refine ⟨?_, fun d hd => (isDigit_ne d (h2 d hd)).1, ?_⟩
      · have hall : (c :: ds).all Char.isDigit = true := List.all_eq_true.mpr h2
        simp only [parseInt, hc.2.1, hall, if_true, if_false, h3]
        rfl
      · simp [hc.2.2]
  | negSucc n =>
    obtain ⟨h1, h2, h3⟩ := repr_spec (n + 1)
    have hd : (to_string (Int.negSucc n)).data = '-' :: (Nat.repr (n + 1)).data := by
      simp [to_string]
    rw [hd]
    generalize (Nat.repr (n + 1)).data = ds at h1 h2 h3
    refine ⟨?_, ?_, by simp⟩
    · have hall : ds.all Char.isDigit = true := List.all_eq_true.mpr h2
      simp only [parseInt, if_true, h1, hall, ne_eq, not_false_eq_true, and_self, h3]
      rfl
    · intro d hd
      rcases List.mem_cons.mp hd with rfl | hd
      · decide
      · exact (isDigit_ne d (h2 d hd)).1

theorem untilColon_append (xs ys : List Char) (h : ∀ c ∈ xs, c ≠ ':') :
    untilColon (xs ++ ':' :: ys) = xs ∧ afterColon (xs ++ ':' :: ys) = ys := by
  induction xs with
  | nil => simp [untilColon, afterColon]
  | cons x xs ih =>
    have hx : x ≠ ':' := h x (List.mem_cons_self _ _)
    have := ih (fun c hc => h c (List.mem_cons_of_mem _ hc))
    simp only [untilColon, afterColon] at this ⊢
    simp [List.takeWhile_cons, List.dropWhile_cons, hx, this]

theorem untilColon_all (xs : List Char) (h : ∀ c ∈ xs, c ≠ ':') :
    untilColon xs = xs ∧ afterColon xs = [] := by
  induction xs with
  | nil => simp [untilColon, afterColon]
  | cons x xs ih =>
    have hx : x ≠ ':' := h x (List.mem_cons_self _ _)
    have := ih (fun c hc => h c (List.mem_cons_of_mem _ hc))
    simp only [untilColon, afterColon] at this ⊢
    simp [List.takeWhile_cons, List.dropWhile_cons, hx, this]

/-- The characters of `ToString`, as one concatenation. -/
theorem ToString_data (l : Location) :
    l.ToString.data = (if l.interesting then ['*'] else []) ++
      ((to_string l.raw_file_id).data ++ ':' :: ((to_string l.line).data ++
        ':' :: (to_string l.column).data)) := by
  cases l with
  | mk i f li c => cases i <;> simp [Location.ToString]

/-- Decoding the text of a location gives the location back. -/
theorem decode_ToString (l : Location) : Location.decode l.ToString = some l := by
  obtain ⟨f1, f2, f3⟩ := to_string_spec l.raw_file_id
  obtain ⟨l1, l2, _⟩ := to_string_spec l.line
  obtain ⟨c1, c2, _⟩ := to_string_spec l.column
  have hd := ToString_data l
  obtain ⟨i, f, li, c⟩ := l
  simp only at f1 f2 f3 l1 l2 c1 c2 hd
  unfold Location.decode
  rw [hd]
  generalize (to_string f).data = F at *
  generalize (to_string li).data = L at *
  generalize (to_string c).data = C at *
  have a1 := untilColon_append F (L ++ ':' :: C) f2
  have a2 := untilColon_append L C l2
  have a3 := untilColon_all C c2
  cases i
  · have hh : (F ++ ':' :: (L ++ ':' :: C)).head? ≠ some '*' := by
      cases F with
      | nil => simp
      | cons x F => simpa using f3
    simp only [Bool.false_eq_true, if_false, List.nil_append, hh, decide_False,
      a1.1, a1.2, a2.1, a2.2, f1, l1, c1]
  · simp only [if_true, List.singleton_append, List.head?_cons, decide_True, List.drop_one,
      List.tail_cons, a1.1, a1.2, a2.1, a2.2, f1, l1, c1]

theorem ToString_injective (a b : Location) (h : a.ToString = b.ToString) : a = b := by
  have ha := decode_ToString a
  rw [h, decode_ToString b] at ha
  exact (Option.some.inj ha).symm

/-! ## The Location codec -/

/-- C1: `Location::ToString` returns the decimal rendering of the file id, a
colon, the decimal rendering of the line, a colon and the decimal rendering of
the column, with one leading star exactly when the interesting flag is set. -/
theorem Location_ToString_format :
    (∀ l : Location, l.ToString =
      (if l.interesting then "*" else "") ++ to_string l.raw_file_id ++ ":" ++
        to_string l.line ++ ":" ++ to_string l.column) ∧
    (∀ l : Location, l.ToString.data.head? = some '*' ↔ l.interesting = true) ∧
    (∀ v : Int, to_string v = (if v < 0 then "-" else "") ++ Nat.repr v.natAbs) ∧
    (∀ v : Int, parseInt (to_string v).data = some v) ∧
    (Location.mk true 3 10 5).ToString = "*3:10:5" ∧
    (Location.mk false 3 10 5).ToString = "3:10:5" := by
  refine ⟨?_, ?_, ?_, fun v => (to_string_spec v).1, by decide, by decide⟩
  · intro l
    apply String.ext
    rw [ToString_data]
    cases l.interesting <;> simp
  · intro l
    rw [ToString_data]
    have h := (to_string_spec l.raw_file_id).2.2
    cases l.interesting
    · generalize (to_string l.raw_file_id).data = F at h
      cases F with
      | nil => simp
      | cons x F => simpa using h
    · simp
  · intro v
    cases v with
    | ofNat n =>
      have : ¬ ((n : Int) < 0) := by omega
      apply String.ext
      simp [to_string, this]
    | negSucc n =>
      have : Int.negSucc n < 0 := Int.negSucc_lt_zero n
      simp [to_string, this, Int.natAbs]

/-- C2: the text encoding can be inverted: `ToString` is injective (negative
fields included), `Location.decode` reads every encoded location back, and the
texts `*3:10:5` and `3:10:5` stand for exactly file 3, line 10, column 5 with
the flag set and cleared. -/
theorem Location_ToString_invertible :
    (∀ a b : Location, a.ToString = b.ToString →
      a.interesting = b.interesting ∧ a.raw_file_id = b.raw_file_id ∧
        a.line = b.line ∧ a.column = b.column) ∧
    (∀ l : Location, Location.decode l.ToString = some l) ∧
    (∀ l : Location, l.ToString = "*3:10:5" ↔ l = ⟨true, 3, 10, 5⟩) ∧
    (∀ l : Location, l.ToString = "3:10:5" ↔ l = ⟨false, 3, 10, 5⟩) ∧
    Location.decode "*3:10:5" = some ⟨true, 3, 10, 5⟩ ∧
    Location.decode "3:10:5" = some ⟨false, 3, 10, 5⟩ := by
  refine ⟨?_, decode_ToString, ?_, ?_, by decide, by decide⟩
  · intro a b h
    have := ToString_injective a b h
    subst this
    exact ⟨rfl, rfl, rfl, rfl⟩
  · intro l
    constructor
    · intro h
      exact ToString_injective l ⟨true, 3, 10, 5⟩ (h.trans (by decide))
    · rintro rfl; decide
  · intro l
    constructor
    · intro h
      exact ToString_injective l ⟨false, 3, 10, 5⟩ (h.trans (by decide))
    · rintro rfl; decide

/-- Two locations with negative fields and equal texts, for C2. -/
theorem Location_ToString_invertible_witness :
    (Location.mk true (-7) (-1) 12).ToString = (Location.mk true (-7) (-1) 12).ToString ∧
      (Location.mk true (-7) (-1) 12).raw_file_id = -7 ∧
      Location.decode "*-7:-1:12" = some ⟨true, -7, -1, 12⟩ :=
  ⟨rfl, rfl, by
    have h := Location_ToString_invertible.2.1 ⟨true, -7, -1, 12⟩
    have e : (Location.mk true (-7) (-1) 12).ToString = "*-7:-1:12" := by decide
    rw [e] at h
    exact h⟩

/-- C3: location equality (`operator==` and `IsEqualTo`) holds exactly when
file id, line and column agree, whatever the interesting flags, and it is
reflexive, symmetric and transitive. -/
theorem Location_eq_ignores_interesting :
    (∀ a b : Location, a.eq b = true ↔
      (a.raw_file_id = b.raw_file_id ∧ a.line = b.line ∧ a.column = b.column)) ∧
    (∀ a b : Location, a.IsEqualTo b = a.eq b) ∧
    (∀ (i j : Bool) (f l c : Int), (Location.mk i f l c).eq (Location.mk j f l c) = true) ∧
    (∀ (a b : Location) (i j : Bool),
      (Location.mk i a.raw_file_id a.line a.column).eq
        (Location.mk j b.raw_file_id b.line b.column) = a.eq b) ∧
    (∀ a : Location, a.eq a = true) ∧
    (∀ a b : Location, a.eq b = true → b.eq a = true) ∧
    (∀ a b c : Location, a.eq b = true → b.eq c = true → a.eq c = true) := by
  have key : ∀ a b : Location, a.eq b = true ↔
      (a.raw_file_id = b.raw_file_id ∧ a.line = b.line ∧ a.column = b.column) := by
    intro a b
    simp [Location.eq, Location.IsEqualTo, and_assoc]
  refine ⟨key, fun _ _ => rfl, ?_, fun _ _ _ _ => rfl, ?_, ?_, ?_⟩
  · intro i j f l c
    exact (key _ _).2 ⟨rfl, rfl, rfl⟩
  · intro a
    exact (key a a).2 ⟨rfl, rfl, rfl⟩
  · intro a b h
    obtain ⟨h1, h2, h3⟩ := (key a b).1 h
    exact (key b a).2 ⟨h1.symm, h2.symm, h3.symm⟩
  · intro a b c hab hbc
    obtain ⟨h1, h2, h3⟩ := (key a b).1 hab
    obtain ⟨g1, g2, g3⟩ := (key b c).1 hbc
    exact (key a c).2 ⟨h1.trans g1, h2.trans g2, h3.trans g3⟩

/-! ## Records -/

theorem length_pos_of_ne_empty (usr : String) (h : usr ≠ "") : usr.length > 0 := by
  obtain ⟨cs⟩ := usr
  cases cs with
  | nil => exact absurd rfl h
  | cons c cs => simp [String.length]

/-- C4: an empty identity string fails the assertion of
`FuncDefDefinitionData`, `IndexedFuncDef` and `IndexedVarDef` (no record is
produced), every non-empty one is accepted by them, and
`TypeDefDefinitionData` accepts the empty string. -/
theorem empty_usr_rejected_for_func_and_var :
    FuncDefDefinitionData.new "" = none ∧
    (∀ id : FuncId, IndexedFuncDef.new id "" = none) ∧
    (∀ id : VarId, IndexedVarDef.new id "" = none) ∧
    (∀ usr : String, usr ≠ "" →
      (∃ d, FuncDefDefinitionData.new usr = some d ∧ d.usr = usr) ∧
      (∀ id : FuncId, ∃ r, IndexedFuncDef.new id usr = some r ∧ r.«def».usr = usr) ∧
      (∀ id : VarId, ∃ r, IndexedVarDef.new id usr = some r ∧ r.«def».usr = usr)) ∧
    (∃ d, TypeDefDefinitionData.new "" = d ∧ d.usr = "") := by
  refine ⟨by decide, fun _ => rfl, fun _ => rfl, ?_, ⟨_, rfl, rfl⟩⟩
  intro usr h
  have hpos := length_pos_of_ne_empty usr h
  refine ⟨?_, ?_, ?_⟩
  · simp [FuncDefDefinitionData.new, hpos]
  · intro id
    simp [IndexedFuncDef.new, FuncDefDefinitionData.new, hpos]
  · intro id
    simp [IndexedVarDef.new, VarDefDefinitionData.new, hpos]

/-- A non-empty identity string accepted by all three asserting constructors,
for C4. -/
theorem empty_usr_rejected_for_func_and_var_witness :
    "c:@F@f#" ≠ "" ∧ (IndexedFuncDef.new ⟨0⟩ "c:@F@f#").isSome = true := by
  refine ⟨by decide, ?_⟩
  obtain ⟨r, hr, _⟩ :=
    (empty_usr_rejected_for_func_and_var.2.2.2.1 "c:@F@f#" (by decide)).2.1 ⟨0⟩
  rw [hr]; rfl

/-- C5: for a non-empty identity string, `IndexedFuncDef(id, usr)` and
`IndexedVarDef(id, usr)` yield a placeholder: `is_bad_def` is true, `id` and
`def.usr` are the arguments, the names are empty, every optional field is
absent and every list is empty. -/
theorem new_record_is_placeholder (usr : String) (h : usr ≠ "") (fid : FuncId) (vid : VarId) :
    (∃ r, IndexedFuncDef.new fid usr = some r ∧ r.is_bad_def = true ∧ r.id = fid ∧
      r.«def».usr = usr ∧ r.«def».short_name = "" ∧ r.«def».qualified_name = "" ∧
      r.«def».definition = none ∧ r.«def».declaring_type = none ∧ r.«def».base = none ∧
      r.«def».locals = [] ∧ r.«def».callees = [] ∧ r.declarations = [] ∧ r.derived = [] ∧
      r.callers = [] ∧ r.uses = []) ∧
    (∃ r, IndexedVarDef.new vid usr = some r ∧ r.is_bad_def = true ∧ r.id = vid ∧
      r.«def».usr = usr ∧ r.«def».short_name = "" ∧ r.«def».qualified_name = "" ∧
      r.«def».declaration = none ∧ r.«def».definition = none ∧
      r.«def».variable_type = none ∧ r.«def».declaring_type = none ∧ r.uses = []) := by
  have hpos := length_pos_of_ne_empty usr h
  constructor
  · simp [IndexedFuncDef.new, FuncDefDefinitionData.new, hpos]
  · simp [IndexedVarDef.new, VarDefDefinitionData.new, hpos]

/-- The function record created for `c:@F@g#` with id 4 is a placeholder, for
C5. -/
theorem new_record_is_placeholder_witness :
    "c:@F@g#" ≠ "" ∧
      (IndexedFuncDef.new ⟨4⟩ "c:@F@g#").map (fun r => (r.is_bad_def, r.id.id, r.uses)) =
        some (true, 4, []) := by
  refine ⟨by decide, ?_⟩
  obtain ⟨r, hr, hb, hid, _, _, _, _, _, _, _, _, _, _, _, hu⟩ :=
    (new_record_is_placeholder "c:@F@g#" (by decide) ⟨4⟩ ⟨9⟩).1
  rw [hr, Option.map_some', hb, hid, hu]

/-! ## Identifiers -/

/-- C6: identifiers of one kind are ordered exactly as their raw numbers:
`a < b` iff `a.id < b.id`, `a == b` iff `a.id = b.id`, exactly one of `a < b`,
`a == b`, `b < a` holds, and `<` is transitive. -/
theorem Id_order_is_raw_order (T : Kind) :
    (∀ a b : Id T, a.lt b = true ↔ a.id < b.id) ∧
    (∀ a b : Id T, a.eq b = true ↔ a.id = b.id) ∧
    (∀ a b : Id T, a.eq b = true ↔ a = b) ∧
    (∀ a b : Id T,
      (a.lt b = true ∧ a.eq b = false ∧ b.lt a = false) ∨
      (a.lt b = false ∧ a.eq b = true ∧ b.lt a = false) ∨
      (a.lt b = false ∧ a.eq b = false ∧ b.lt a = true)) ∧
    (∀ a : Id T, a.lt a = false) ∧
    (∀ a b c : Id T, a.lt b = true → b.lt c = true → a.lt c = true) := by
  refine ⟨?_, ?_, ?_, ?_, ?_, ?_⟩
  · intro a b; simp [Id.lt]
  · intro a b; simp [Id.eq]
  · intro a b
    obtain ⟨x⟩ := a
    obtain ⟨y⟩ := b
    simp [Id.eq]
  · intro a b
    simp only [Id.lt, Id.eq, decide_eq_true_eq, decide_eq_false_iff_not]
    omega
  · intro a; simp [Id.lt]
  · intro a b c
    simp only [Id.lt, decide_eq_true_eq]
    omega

/-! ## The sentinel location -/

/-- C7, as the code has it: the default-constructed location has file id,
line and column -1 and a cleared flag, and `ToString` returns `-1:-1:-1` for
it, a text that decodes back to the sentinel. -/
theorem default_Location_ToString :
    Location.default = ⟨false, -1, -1, -1⟩ ∧
    Location.default.ToString = "-1:-1:-1" ∧
    Location.decode Location.default.ToString = some Location.default := by
  refine ⟨rfl, by decide, by decide⟩

/-- C7 as stated fails: the text of the sentinel location has no leading
colon. -/
theorem default_Location_ToString_not_colon_first :
    (Location.mk false (-1) (-1) (-1)).ToString ≠ ":-1:-1:-1" := by
  decide

/-! ## Use lists -/

/-- C8: after `AddUsage(L1, true)` and `AddUsage(L2, true)` with `L1 == L2`
on a record whose use list did not hold that place, the list is the old one
followed by `L1` and holds exactly one use of that place; with the flag false
the location is always appended. -/
theorem AddUsage_dedup (r : IndexedTypeDef) (L1 L2 : Location)
    (heq : L1.eq L2 = true) (hfresh : ∀ u ∈ r.uses, u.eq L1 = false) :
    (r.AddUsage L1 true).AddUsage L2 true = { r with uses := r.uses ++ [L1] } ∧
    ((((r.AddUsage L1 true).AddUsage L2 true).uses.filter (fun u => u.eq L1)).length = 1) ∧
    ((((r.AddUsage L1 true).AddUsage L2 true).uses.filter (fun u => u.eq L2)).length = 1) ∧
    (∀ loc : Location, (r.AddUsage loc false).uses = r.uses ++ [loc]) := by
  have hrefl : ∀ a : Location, a.eq a = true := by
    intro a; simp [Location.eq, Location.IsEqualTo]
  have hcongr : ∀ u : Location, u.eq L2 = u.eq L1 := by
    intro u
    simp only [Location.eq, Location.IsEqualTo, Bool.and_eq_true, decide_eq_true_eq] at heq ⊢
    rw [heq.1.1, heq.1.2, heq.2]
  have hany : r.uses.any (fun u => u.eq L1) = false := by
    rw [List.any_eq_false]
    intro u hu
    simp [hfresh u hu]
  have hfil : r.uses.filter (fun u => u.eq L1) = [] := by
    rw [List.filter_eq_nil_iff]
    intro u hu
    simp [hfresh u hu]
  have h1 : r.AddUsage L1 true = { r with uses := r.uses ++ [L1] } := by
    simp [IndexedTypeDef.AddUsage, hany]
  have h2 : (r.AddUsage L1 true).AddUsage L2 true = { r with uses := r.uses ++ [L1] } := by
    rw [h1]
    simp [IndexedTypeDef.AddUsage, heq]
  refine ⟨h2, ?_, ?_, ?_⟩
  · rw [h2]
    simp [List.filter_append, hfil, hrefl]
  · rw [h2]
    simp only [hcongr]
    simp [List.filter_append, hfil, hrefl]
  · intro loc
    simp [IndexedTypeDef.AddUsage]

/-- The same place recorded twice, once incidental and once interesting, on a
record that already has another use, for C8. -/
theorem AddUsage_dedup_witness :
    (((IndexedTypeDef.new ⟨0⟩ "c:@S@Foo").AddUsage ⟨false, 1, 2, 3⟩ false).AddUsage
        ⟨false, 1, 7, 4⟩ true).AddUsage ⟨true, 1, 7, 4⟩ true =
      { IndexedTypeDef.new ⟨0⟩ "c:@S@Foo" with
        uses := [⟨false, 1, 2, 3⟩, ⟨false, 1, 7, 4⟩] } :=
  (AddUsage_dedup ((IndexedTypeDef.new ⟨0⟩ "c:@S@Foo").AddUsage ⟨false, 1, 2, 3⟩ false)
    ⟨false, 1, 7, 4⟩ ⟨true, 1, 7, 4⟩ (by decide) (by decide)).1

/-! ## Identity resolution -/

theorem mapFind_mapSet {K V : Type} [DecidableEq K] (m : List (K × V)) (k : K) (v : V) :
    mapFind (mapSet m k v) k = some v := by
  simp [mapSet, mapFind]

theorem ToTypeId_twice (f : IndexedFile) (s : String) :
    (f.ToTypeId s).2.ToTypeId s = f.ToTypeId s := by
  cases hfind : mapFind f.id_cache.usr_to_type_id s with
  | some id => simp [IndexedFile.ToTypeId, hfind]
  | none => simp [IndexedFile.ToTypeId, hfind, mapFind_mapSet]

theorem ToFuncId_twice (f : IndexedFile) (s : String) (hs : s ≠ "") :
    ∃ id f1, f.ToFuncId s = some (id, f1) ∧ f1.ToFuncId s = some (id, f1) := by
  have hpos := length_pos_of_ne_empty s hs
  cases hfind : mapFind f.id_cache.usr_to_func_id s with
  | some id => exact ⟨id, f, by simp [IndexedFile.ToFuncId, hfind], by
      simp [IndexedFile.ToFuncId, hfind]⟩
  | none =>
    obtain ⟨r, hr⟩ : ∃ r, IndexedFuncDef.new ⟨f.funcs.length⟩ s = some r := by
      simp [IndexedFuncDef.new, FuncDefDefinitionData.new, hpos]
    have e1 : f.ToFuncId s = some (⟨f.funcs.length⟩,
        { f with
          funcs := f.funcs ++ [r]
          id_cache :=
            { f.id_cache with
              usr_to_func_id := mapSet f.id_cache.usr_to_func_id s ⟨f.funcs.length⟩
              func_id_to_usr := mapSet f.id_cache.func_id_to_usr ⟨f.funcs.length⟩ s } }) := by
      simp only [IndexedFile.ToFuncId, hfind, hr]
    refine ⟨_, _, e1, ?_⟩
    simp only [IndexedFile.ToFuncId, mapFind_mapSet]

theorem ToVarId_twice (f : IndexedFile) (s : String) (hs : s ≠ "") :
    ∃ id f1, f.ToVarId s = some (id, f1) ∧ f1.ToVarId s = some (id, f1) := by
  have hpos := length_pos_of_ne_empty s hs
  cases hfind : mapFind f.id_cache.usr_to_var_id s with
  | some id => exact ⟨id, f, by simp [IndexedFile.ToVarId, hfind], by
      simp [IndexedFile.ToVarId, hfind]⟩
  | none =>
    obtain ⟨r, hr⟩ : ∃ r, IndexedVarDef.new ⟨f.vars.length⟩ s = some r := by
      simp [IndexedVarDef.new, VarDefDefinitionData.new, hpos]
    have e1 : f.ToVarId s = some (⟨f.vars.length⟩,
        { f with
          vars := f.vars ++ [r]
          id_cache :=
            { f.id_cache with
              usr_to_var_id := mapSet f.id_cache.usr_to_var_id s ⟨f.vars.length⟩
              var_id_to_usr := mapSet f.id_cache.var_id_to_usr ⟨f.vars.length⟩ s } }) := by
      simp only [IndexedFile.ToVarId, hfind, hr]
    refine ⟨_, _, e1, ?_⟩
    simp only [IndexedFile.ToVarId, mapFind_mapSet]

/-- C9: on every index, asking twice for the identifier of one identity
string (non-empty for functions and variables; any string for types) returns
the same identifier both times, and the second call leaves the index, its
record stores included, as the first call left it. -/
theorem ToId_idempotent (f : IndexedFile) (s : String) (hs : s ≠ "") :
    (∀ t : String, (f.ToTypeId t).2.ToTypeId t = ((f.ToTypeId t).1, (f.ToTypeId t).2)) ∧
    (∀ t : String,
      ((f.ToTypeId t).2.ToTypeId t).2.types.length = (f.ToTypeId t).2.types.length) ∧
    (∃ id f1, f.ToFuncId s = some (id, f1) ∧ f1.ToFuncId s = some (id, f1)) ∧
    (∃ id f1, f.ToVarId s = some (id, f1) ∧ f1.ToVarId s = some (id, f1)) := by
  refine ⟨fun t => ToTypeId_twice f t, fun t => ?_, ToFuncId_twice f s hs, ToVarId_twice f s hs⟩
  rw [ToTypeId_twice]

/-- On a fresh index, `c:@F@f#` gets function id 0 on the first call and on
the second, with one record in the store, for C9. -/
theorem ToId_idempotent_witness :
    "c:@F@f#" ≠ "" ∧
      ∃ f1, (IndexedFile.new "a.cc").ToFuncId "c:@F@f#" = some ((⟨0⟩ : FuncId), f1) ∧
        f1.ToFuncId "c:@F@f#" = some ((⟨0⟩ : FuncId), f1) ∧ f1.funcs.length = 1 := by
  refine ⟨by decide, ?_⟩
  obtain ⟨id, f1, h1, h2⟩ := (ToId_idempotent (IndexedFile.new "a.cc") "c:@F@f#" (by decide)).2.2.1
  have e : (IndexedFile.new "a.cc").ToFuncId "c:@F@f#" =
      some ((⟨0⟩ : FuncId), (((IndexedFile.new "a.cc").ToFuncId "c:@F@f#").get (by decide)).2) := by
    decide
  rw [e] at h1
  obtain ⟨hid, hf⟩ := Prod.mk.inj (Option.some.inj h1)
  subst hid
  refine ⟨f1, by rw [e, hf], h2, ?_⟩
  rw [← hf]
  decide

/-! ## Location ordering -/

/-- C10: `Location::operator<` is the conjunction of the four strict
comparisons, and it is neither total nor a strict weak order: there are
unequal locations that it leaves unordered, and being unordered is not
transitive, as (false,0,0,0), (false,5,5,5), (true,1,1,1) show. -/
theorem Location_lt_not_strict_weak :
    (∀ a b : Location, a.lt b = true ↔
      (a.interesting < b.interesting ∧ a.raw_file_id < b.raw_file_id ∧
        a.line < b.line ∧ a.column < b.column)) ∧
    (∃ a b : Location, a.eq b = false ∧ a.lt b = false ∧ b.lt a = false) ∧
    (∃ a b c : Location, a.lt b = false ∧ b.lt a = false ∧ b.lt c = false ∧ c.lt b = false ∧
      a.lt c = true) ∧
    ((Location.mk false 0 0 0).lt (Location.mk false 5 5 5) = false ∧
      (Location.mk false 5 5 5).lt (Location.mk false 0 0 0) = false ∧
      (Location.mk false 5 5 5).lt (Location.mk true 1 1 1) = false ∧
      (Location.mk true 1 1 1).lt (Location.mk false 5 5 5) = false ∧
      (Location.mk false 0 0 0).lt (Location.mk true 1 1 1) = true ∧
      (Location.mk false 0 0 0).eq (Location.mk false 5 5 5) = false) := by
  refine ⟨?_, ⟨⟨false, 0, 0, 0⟩, ⟨false, 5, 5, 5⟩, by decide⟩,
    ⟨⟨false, 0, 0, 0⟩, ⟨false, 5, 5, 5⟩, ⟨true, 1, 1, 1⟩, by decide⟩, by decide⟩
  intro a b
  simp [Location.lt, and_assoc]

/-! ## Reference ordering -/

/-- C11: `Ref::operator<` holds exactly when the id is strictly smaller and
the location is strictly smaller under `Location::operator<`; it is neither
total nor a strict weak order: two references with different ids whose
locations carry the same interesting flag are unequal and unordered, and
being unordered is not transitive. -/
theorem Ref_lt_not_strict_weak (T : Kind) :
    (∀ a b : Ref T, a.lt b = true ↔ (a.id.id < b.id.id ∧ a.loc.lt b.loc = true)) ∧
    (∀ a b : Ref T, a.lt b = true ↔
      (a.id.id < b.id.id ∧ a.loc.interesting < b.loc.interesting ∧
        a.loc.raw_file_id < b.loc.raw_file_id ∧ a.loc.line < b.loc.line ∧
        a.loc.column < b.loc.column)) ∧
    (∀ a b : Ref T, a.id.id ≠ b.id.id → a.loc.interesting = b.loc.interesting →
      a.eq b = false ∧ a.lt b = false ∧ b.lt a = false) ∧
    (∃ a b : Ref T, a.eq b = false ∧ a.lt b = false ∧ b.lt a = false) ∧
    (∃ a b c : Ref T, a.lt b = false ∧ b.lt a = false ∧ b.lt c = false ∧ c.lt b = false ∧
      a.lt c = true) := by
  have hsame : ∀ a b : Ref T, a.id.id ≠ b.id.id → a.loc.interesting = b.loc.interesting →
      a.eq b = false ∧ a.lt b = false ∧ b.lt a = false := by
    intro a b hid hflag
    refine ⟨?_, ?_, ?_⟩
    · simp [Ref.eq, Id.eq, hid]
    · simp [Ref.lt, Location.lt, hflag]
    · simp [Ref.lt, Location.lt, hflag]
  refine ⟨?_, ?_, hsame, ?_, ?_⟩
  · intro a b
    simp [Ref.lt, Id.lt]
  · intro a b
    simp [Ref.lt, Id.lt, Location.lt, and_assoc]
  · exact ⟨⟨⟨0⟩, ⟨false, 0, 0, 0⟩⟩, ⟨⟨1⟩, ⟨false, 0, 0, 0⟩⟩,
      hsame _ _ (by simp) rfl⟩
  · exact ⟨⟨⟨0⟩, ⟨false, 0, 0, 0⟩⟩, ⟨⟨5⟩, ⟨false, 5, 5, 5⟩⟩, ⟨⟨1⟩, ⟨true, 1, 1, 1⟩⟩,
      by simp [Ref.lt, Id.lt, Location.lt]⟩

/-- Two function references with ids 3 and 8 at interesting locations are
unequal and unordered, for C11. -/
theorem Ref_lt_not_strict_weak_witness :
    (Ref.mk (⟨3⟩ : FuncId) ⟨true, 1, 2, 3⟩).eq (Ref.mk ⟨8⟩ ⟨true, 4, 5, 6⟩) = false ∧
      (Ref.mk (⟨3⟩ : FuncId) ⟨true, 1, 2, 3⟩).lt (Ref.mk ⟨8⟩ ⟨true, 4, 5, 6⟩) = false ∧
      (Ref.mk (⟨8⟩ : FuncId) ⟨true, 4, 5, 6⟩).lt (Ref.mk ⟨3⟩ ⟨true, 1, 2, 3⟩) = false :=
  (Ref_lt_not_strict_weak Kind.IndexedFuncDef).2.2.1 ⟨⟨3⟩, ⟨true, 1, 2, 3⟩⟩
    ⟨⟨8⟩, ⟨true, 4, 5, 6⟩⟩ (by decide) rfl

/-- C12: `Location::operator<` can only order a non-interesting location
before an interesting one: `a < b` forces `a.interesting = false`,
`b.interesting = true` and `a`, `b` unequal under `==`; locations with the
same flag are never ordered; `<` is irreflexive and asymmetric, and no chain
`a < b`, `b < c` exists. -/
theorem Location_lt_only_across_flags :
    (∀ a b : Location, a.lt b = true →
      a.interesting = false ∧ b.interesting = true ∧ a.eq b = false) ∧
    (∀ a b : Location, a.interesting = b.interesting → a.lt b = false) ∧
    (∀ a : Location, a.lt a = false) ∧
    (∀ a b : Location, a.lt b = true → b.lt a = false) ∧
    (∀ a b c : Location, ¬ (a.lt b = true ∧ b.lt c = true)) ∧
    (∀ a b c : Location, a.lt b = true → b.lt c = true → a.lt c = true) := by
  have key : ∀ a b : Location, a.lt b = true →
      a.interesting = false ∧ b.interesting = true ∧ a.eq b = false := by
    intro a b h
    simp only [Location.lt, Bool.and_eq_true, decide_eq_true_eq] at h
    obtain ⟨⟨⟨hi, hf⟩, _⟩, _⟩ := h
    refine ⟨?_, ?_, ?_⟩
    · revert hi; cases a.interesting <;> cases b.interesting <;> decide
    · revert hi; cases a.interesting <;> cases b.interesting <;> decide
    · have hne : a.raw_file_id ≠ b.raw_file_id := ne_of_lt hf
      simp [Location.eq, Location.IsEqualTo, hne]
  have hsame : ∀ a b : Location, a.interesting = b.interesting → a.lt b = false := by
    intro a b hflag
    simp [Location.lt, hflag]
  have hchain : ∀ a b c : Location, ¬ (a.lt b = true ∧ b.lt c = true) := by
    rintro a b c ⟨hab, hbc⟩
    have h1 := (key a b hab).2.1
    have h2 := (key b c hbc).1
    rw [h1] at h2
    exact Bool.noConfusion h2
  refine ⟨key, hsame, fun a => hsame a a rfl, ?_, hchain, ?_⟩
  · intro a b hab
    cases hba : b.lt a with
    | false => rfl
    | true =>
      have h1 := (key a b hab).1
      have h2 := (key b a hba).2.1
      rw [h1] at h2
      exact Bool.noConfusion h2
  · intro a b c hab hbc
    exact absurd ⟨hab, hbc⟩ (hchain a b c)

/-- An ordered pair of locations: the first is not interesting, the second
is, and the two are unequal, for C12. -/
theorem Location_lt_only_across_flags_witness :
    (Location.mk false 0 0 0).lt (Location.mk true 1 1 1) = true ∧
      (Location.mk false 0 0 0).interesting = false ∧
      (Location.mk true 1 1 1).interesting = true ∧
      (Location.mk false 0 0 0).eq (Location.mk true 1 1 1) = false :=
  ⟨by decide, Location_lt_only_across_flags.1 ⟨false, 0, 0, 0⟩ ⟨true, 1, 1, 1⟩ (by decide)⟩

/-! ## Ordering and hashing of records -/

/-- The comparison computes the lexicographic order of the character lists. -/
theorem lex_lt_iff (xs ys : List Char) :
    lex_lt xs ys = true ↔ List.Lex (fun a b : Char => a < b) xs ys := by
  induction xs generalizing ys with
  | nil =>
    cases ys with
    | nil => simp [lex_lt, List.Lex.not_nil_right]
    | cons b bs => simp [lex_lt, List.Lex.nil]
  | cons a as ih =>
    cases ys with
    | nil => simp [lex_lt, List.Lex.not_nil_right]
    | cons b bs =>
      rw [lex_lt]
      by_cases hab : a < b
      · simp [hab, List.Lex.rel hab]
      · by_cases hba : b < a
        · simp only [hab, hba, if_true, if_false]
          constructor
          · intro h; exact absurd h (by decide)
          · intro h
            cases h with
            | cons h => exact absurd hba (lt_irrefl _)
            | rel h => exact absurd h hab
        · have heq : a = b := le_antisymm (not_lt.mp hba) (not_lt.mp hab)
          subst heq
          simp only [hab, if_false]
          rw [ih bs]
          exact List.Lex.cons_iff.symm

theorem string_lt_irrefl (s : String) : string_lt s s = false := by
  cases h : string_lt s s with
  | false => rfl
  | true =>
    have := (lex_lt_iff _ _).1 h
    exact absurd this (irrefl_of (List.Lex (fun a b : Char => a < b)) _)

theorem string_lt_trans (s t u : String) (h1 : string_lt s t = true)
    (h2 : string_lt t u = true) : string_lt s u = true :=
  (lex_lt_iff _ _).2 (trans_of (List.Lex (fun a b : Char => a < b)) ((lex_lt_iff _ _).1 h1)
    ((lex_lt_iff _ _).1 h2))

theorem string_lt_incomparable (s t : String) :
    (string_lt s t = false ∧ string_lt t s = false) ↔ s = t := by
  constructor
  · rintro ⟨h1, h2⟩
    have n1 : ¬ List.Lex (fun a b : Char => a < b) s.data t.data := by
      rw [← lex_lt_iff]; simp [string_lt] at h1; simp [h1]
    have n2 : ¬ List.Lex (fun a b : Char => a < b) t.data s.data := by
      rw [← lex_lt_iff]; simp [string_lt] at h2; simp [h2]
    rcases trichotomous_of (List.Lex (fun a b : Char => a < b)) s.data t.data with h | h | h
    · exact absurd h n1
    · exact String.ext h
    · exact absurd h n2
  · rintro rfl
    exact ⟨string_lt_irrefl s, string_lt_irrefl s⟩

/-- C13: for type, function and variable records alike, `a < b` holds exactly
when `a.def.usr` is lexicographically smaller than `b.def.usr`, records with
equal `usr` have equal hashes, neither depends on any other member, and the
order is a strict weak order (irreflexive, transitive) whose equivalence
classes are the records with equal `usr`. -/
theorem record_order_and_hash_by_usr :
    ((∀ a b : IndexedTypeDef, a.lt b = true ↔
        List.Lex (fun x y : Char => x < y) a.«def».usr.data b.«def».usr.data) ∧
      (∀ (hash_string : String → Nat) (a b : IndexedTypeDef), a.«def».usr = b.«def».usr →
        a.hash hash_string = b.hash hash_string) ∧
      (∀ a a' b b' : IndexedTypeDef, a.«def».usr = a'.«def».usr → b.«def».usr = b'.«def».usr →
        a.lt b = a'.lt b') ∧
      (∀ a : IndexedTypeDef, a.lt a = false) ∧
      (∀ a b c : IndexedTypeDef, a.lt b = true → b.lt c = true → a.lt c = true) ∧
      (∀ a b : IndexedTypeDef, (a.lt b = false ∧ b.lt a = false) ↔ a.«def».usr = b.«def».usr)) ∧
    ((∀ a b : IndexedFuncDef, a.lt b = true ↔
        List.Lex (fun x y : Char => x < y) a.«def».usr.data b.«def».usr.data) ∧
      (∀ (hash_string : String → Nat) (a b : IndexedFuncDef), a.«def».usr = b.«def».usr →
        a.hash hash_string = b.hash hash_string) ∧
      (∀ a a' b b' : IndexedFuncDef, a.«def».usr = a'.«def».usr → b.«def».usr = b'.«def».usr →
        a.lt b = a'.lt b') ∧
      (∀ a : IndexedFuncDef, a.lt a = false) ∧
      (∀ a b c : IndexedFuncDef, a.lt b = true → b.lt c = true → a.lt c = true) ∧
      (∀ a b : IndexedFuncDef, (a.lt b = false ∧ b.lt a = false) ↔ a.«def».usr = b.«def».usr)) ∧
    ((∀ a b : IndexedVarDef, a.lt b = true ↔
        List.Lex (fun x y : Char => x < y) a.«def».usr.data b.«def».usr.data) ∧
      (∀ (hash_string : String → Nat) (a b : IndexedVarDef), a.«def».usr = b.«def».usr →
        a.hash hash_string = b.hash hash_string) ∧
      (∀ a a' b b' : IndexedVarDef, a.«def».usr = a'.«def».usr → b.«def».usr = b'.«def».usr →
        a.lt b = a'.lt b') ∧
      (∀ a : IndexedVarDef, a.lt a = false) ∧
      (∀ a b c : IndexedVarDef, a.lt b = true → b.lt c = true → a.lt c = true) ∧
      (∀ a b : IndexedVarDef, (a.lt b = false ∧ b.lt a = false) ↔ a.«def».usr = b.«def».usr)) := by
  refine ⟨?_, ?_, ?_⟩
  · refine ⟨fun a b => lex_lt_iff _ _, ?_, ?_, fun a => string_lt_irrefl _,
      fun a b c => string_lt_trans _ _ _, fun a b => string_lt_incomparable _ _⟩
    · intro hash_string a b h
      simp only [IndexedTypeDef.hash, h]
    · intro a a' b b' ha hb
      simp only [IndexedTypeDef.lt, ha, hb]
  · refine ⟨fun a b => lex_lt_iff _ _, ?_, ?_, fun a => string_lt_irrefl _,
      fun a b c => string_lt_trans _ _ _, fun a b => string_lt_incomparable _ _⟩
    · intro hash_string a b h
      simp only [IndexedFuncDef.hash, h]
    · intro a a' b b' ha hb
      simp only [IndexedFuncDef.lt, ha, hb]
  · refine ⟨fun a b => lex_lt_iff _ _, ?_, ?_, fun a => string_lt_irrefl _,
      fun a b c => string_lt_trans _ _ _, fun a b => string_lt_incomparable _ _⟩
    · intro hash_string a b h
      simp only [IndexedVarDef.hash, h]
    · intro a a' b b' ha hb
      simp only [IndexedVarDef.lt, ha, hb]

/-- Two type records that share `c:@S@Foo` and differ in everything else are
equivalent under the order, and the record of `c:@S@Bar` comes before both,
for C13. -/
theorem record_order_and_hash_by_usr_witness :
    ((IndexedTypeDef.new ⟨0⟩ "c:@S@Foo").lt
        ((IndexedTypeDef.new ⟨7⟩ "c:@S@Foo").AddUsage ⟨true, 1, 2, 3⟩ false) = false ∧
      ((IndexedTypeDef.new ⟨7⟩ "c:@S@Foo").AddUsage ⟨true, 1, 2, 3⟩ false).lt
        (IndexedTypeDef.new ⟨0⟩ "c:@S@Foo") = false) ∧
      (IndexedTypeDef.new ⟨9⟩ "c:@S@Bar").lt (IndexedTypeDef.new ⟨0⟩ "c:@S@Foo") = true :=
  ⟨(record_order_and_hash_by_usr.1.2.2.2.2.2 (IndexedTypeDef.new ⟨0⟩ "c:@S@Foo")
      ((IndexedTypeDef.new ⟨7⟩ "c:@S@Foo").AddUsage ⟨true, 1, 2, 3⟩ false)).2 (by decide),
    by decide⟩

/-! ## Truncation in the Location constructor -/

theorem toInt32_eq_iff (n : Nat) (h : n < 2 ^ 32) : toInt32 n = (n : Int) ↔ n < 2 ^ 31 := by
  unfold toInt32
  split_ifs with h1 <;> omega

theorem toInt32_range (n : Nat) : -(2 ^ 31 : Int) ≤ toInt32 n ∧ toInt32 n < 2 ^ 31 := by
  unfold toInt32
  split_ifs with h1 <;> omega

theorem file_id_new_iff (i : Bool) (f : FileId) (l c : Nat) (hf : f.id < 2 ^ 64) :
    (Location.new i f l c).file_id = f ↔ (f.id < 2 ^ 31 ∨ 2 ^ 64 - 2 ^ 31 ≤ f.id) := by
  obtain ⟨n⟩ := f
  simp only [Location.new, Location.file_id, Id.mk.injEq, toInt32] at hf ⊢
  split_ifs with h1 <;> omega

/-- Storing the file id read back from a location gives the same stored
value. -/
theorem toInt32_file_id (i : Bool) (f : FileId) (l c : Nat) :
    toInt32 (Location.new i f l c).file_id.id = toInt32 f.id := by
  obtain ⟨n⟩ := f
  simp only [Location.new, Location.file_id]
  have hr := toInt32_range n
  generalize toInt32 n = r at hr
  unfold toInt32
  split_ifs with h1 <;> omega

theorem file_id_lt (x : Location) : x.file_id.id < 2 ^ 64 := by
  simp only [Location.file_id]
  omega

/-- C14: with truncation to 32 bits, `Location(i, f, l, c).file_id()` is `f`
exactly when `f.id < 2^31` or `f.id >= 2^64 - 2^31`; any other file id shares
its location with a different file id, as `FileId(2^32)` does with
`FileId(0)` (equal under `==`, same text); the stored line and column equal
the `uint32_t` arguments exactly when these are below `2^31`. -/
theorem Location_new_truncates (i : Bool) (f : FileId) (l c : Nat)
    (hf : f.id < 2 ^ 64) (hl : l < 2 ^ 32) (hc : c < 2 ^ 32) :
    ((Location.new i f l c).file_id = f ↔ (f.id < 2 ^ 31 ∨ 2 ^ 64 - 2 ^ 31 ≤ f.id)) ∧
    (¬ (f.id < 2 ^ 31 ∨ 2 ^ 64 - 2 ^ 31 ≤ f.id) →
      ∃ g : FileId, g ≠ f ∧ g.id < 2 ^ 64 ∧ Location.new i g l c = Location.new i f l c) ∧
    ((Location.new i f l c).line = (l : Int) ↔ l < 2 ^ 31) ∧
    ((Location.new i f l c).column = (c : Int) ↔ c < 2 ^ 31) ∧
    (Location.new i ⟨2 ^ 32⟩ l c).eq (Location.new i ⟨0⟩ l c) = true ∧
    (Location.new i ⟨2 ^ 32⟩ l c).ToString = (Location.new i ⟨0⟩ l c).ToString ∧
    (Location.new i ⟨2 ^ 32⟩ l c).file_id = ⟨0⟩ := by
  have hcol : Location.new i ⟨2 ^ 32⟩ l c = Location.new i ⟨0⟩ l c := by
    have h0 : toInt32 (2 ^ 32) = toInt32 0 := by decide
    simp only [Location.new, h0]
  refine ⟨file_id_new_iff i f l c hf, ?_, toInt32_eq_iff l hl, toInt32_eq_iff c hc, ?_, ?_, ?_⟩
  · intro hout
    refine ⟨(Location.new i f l c).file_id, ?_, file_id_lt _, ?_⟩
    · exact fun h => hout ((file_id_new_iff i f l c hf).1 h)
    · have h := toInt32_file_id i f l c
      simp only [Location.new] at h ⊢
      rw [h]
  · rw [hcol]
    simp [Location.eq, Location.IsEqualTo]
  · rw [hcol]
  · rw [hcol]
    simp only [Location.new, Location.file_id]
    have h0 : toInt32 0 = 0 := by decide
    rw [h0]
    rfl

/-- File id `2^32 + 5`, line 10 and column `2^31`: the file id read back is
not the one stored, the line is the argument, the column is not, for C14. -/
theorem Location_new_truncates_witness :
    (Location.new true ⟨2 ^ 32 + 5⟩ 10 (2 ^ 31)).file_id ≠ ⟨2 ^ 32 + 5⟩ ∧
      (Location.new true ⟨2 ^ 32 + 5⟩ 10 (2 ^ 31)).line = 10 ∧
      (Location.new true ⟨2 ^ 32 + 5⟩ 10 (2 ^ 31)).column ≠ ((2 ^ 31 : Nat) : Int) :=
  have h := Location_new_truncates true ⟨2 ^ 32 + 5⟩ 10 (2 ^ 31) (by decide) (by decide)
    (by decide)
  ⟨fun e => absurd (h.1.1 e) (by decide), h.2.2.1.2 (by decide),
    fun e => absurd (h.2.2.2.1.1 e) (by decide)⟩

/-! ## Reference equality -/

theorem Location_eq_iff (a b : Location) :
    a.eq b = true ↔
      (a.raw_file_id = b.raw_file_id ∧ a.line = b.line ∧ a.column = b.column) := by
  simp [Location.eq, Location.IsEqualTo, and_assoc]

theorem Ref_eq_iff {T : Kind} (a b : Ref T) :
    a.eq b = true ↔
      (a.id.id = b.id.id ∧ a.loc.raw_file_id = b.loc.raw_file_id ∧ a.loc.line = b.loc.line ∧
        a.loc.column = b.loc.column) := by
  simp [Ref.eq, Id.eq, Location_eq_iff]

/-- C16: two references are equal under `==` exactly when their raw ids agree
and their locations have the same file id, line and column (the interesting
flags play no part); `!=` is the negation; the member and the free operators
agree; and `==` is reflexive, symmetric and transitive. -/
theorem Ref_eq_same_symbol_same_place (T : Kind) :
    (∀ a b : Ref T, a.eq b = true ↔
      (a.id.id = b.id.id ∧ a.loc.raw_file_id = b.loc.raw_file_id ∧ a.loc.line = b.loc.line ∧
        a.loc.column = b.loc.column)) ∧
    (∀ (a b : Ref T) (x y : Bool),
      (Ref.mk a.id (a.loc.WithInteresting x)).eq (Ref.mk b.id (b.loc.WithInteresting y)) =
        a.eq b) ∧
    (∀ a b : Ref T, a.ne b = true ↔ a.eq b = false) ∧
    (∀ a b : Ref T, Ref.eq_free a b = a.eq b) ∧
    (∀ a b : Ref T, Ref.ne_free a b = a.ne b) ∧
    (∀ a : Ref T, a.eq a = true) ∧
    (∀ a b : Ref T, a.eq b = true → b.eq a = true) ∧
    (∀ a b c : Ref T, a.eq b = true → b.eq c = true → a.eq c = true) := by
  refine ⟨Ref_eq_iff, fun _ _ _ _ => rfl, ?_, fun _ _ => rfl, fun _ _ => rfl, ?_, ?_, ?_⟩
  · intro a b
    simp [Ref.ne]
  · intro a
    exact (Ref_eq_iff a a).2 ⟨rfl, rfl, rfl, rfl⟩
  · intro a b h
    obtain ⟨h1, h2, h3, h4⟩ := (Ref_eq_iff a b).1 h
    exact (Ref_eq_iff b a).2 ⟨h1.symm, h2.symm, h3.symm, h4.symm⟩
  · intro a b c hab hbc
    obtain ⟨h1, h2, h3, h4⟩ := (Ref_eq_iff a b).1 hab
    obtain ⟨g1, g2, g3, g4⟩ := (Ref_eq_iff b c).1 hbc
    exact (Ref_eq_iff a c).2 ⟨h1.trans g1, h2.trans g2, h3.trans g3, h4.trans g4⟩

/-- Two mentions of function 4 at file 1, line 7, column 2, one interesting
and one not, are equal, and equality is symmetric there, for C16. -/
theorem Ref_eq_same_symbol_same_place_witness :
    (Ref.mk (⟨4⟩ : FuncId) ⟨true, 1, 7, 2⟩).eq (Ref.mk ⟨4⟩ ⟨false, 1, 7, 2⟩) = true ∧
      (Ref.mk (⟨4⟩ : FuncId) ⟨false, 1, 7, 2⟩).eq (Ref.mk ⟨4⟩ ⟨true, 1, 7, 2⟩) = true :=
  ⟨by decide,
    (Ref_eq_same_symbol_same_place Kind.IndexedFuncDef).2.2.2.2.2.2.1
      ⟨⟨4⟩, ⟨true, 1, 7, 2⟩⟩ ⟨⟨4⟩, ⟨false, 1, 7, 2⟩⟩ (by decide)⟩

/-! ## WithInteresting -/

/-- C17: `Location::WithInteresting` changes only the flag: the result has the
given flag and the file id, line and column of the original (so it equals the
original under `==`); setting the flag a location already has returns it
unchanged; a second call overrides the first; and the text with the flag set
is a star followed by the text with the flag cleared. -/
theorem WithInteresting_changes_only_flag :
    (∀ (l : Location) (x : Bool),
      (l.WithInteresting x).interesting = x ∧
        (l.WithInteresting x).raw_file_id = l.raw_file_id ∧
        (l.WithInteresting x).file_id = l.file_id ∧
        (l.WithInteresting x).line = l.line ∧
        (l.WithInteresting x).column = l.column) ∧
    (∀ (l : Location) (x : Bool), (l.WithInteresting x).eq l = true) ∧
    (∀ l : Location, l.WithInteresting l.interesting = l) ∧
    (∀ (l : Location) (x y : Bool),
      (l.WithInteresting x).WithInteresting y = l.WithInteresting y) ∧
    (∀ l : Location,
      (l.WithInteresting true).ToString = "*" ++ (l.WithInteresting false).ToString) ∧
    (Location.mk false 3 10 5).WithInteresting true = ⟨true, 3, 10, 5⟩ := by
  refine ⟨fun l x => ⟨rfl, rfl, rfl, rfl, rfl⟩, ?_, fun l => rfl, fun l x y => rfl, ?_, rfl⟩
  · intro l x
    exact (Location_eq_iff _ _).2 ⟨rfl, rfl, rfl⟩
  · intro l
    apply String.ext
    rw [String.data_append, ToString_data, ToString_data]
    simp [Location.WithInteresting]

/-! ## Equality of definition data -/

theorem optional_eq_iff {α β : Type} (eq : α → α → Bool) (f : α → β)
    (h : ∀ x y, eq x y = true ↔ f x = f y) (a b : Option α) :
    optional_eq eq a b = true ↔ a.map f = b.map f := by
  cases a <;> cases b <;> simp [optional_eq, h]

theorem vector_eq_iff {α β : Type} (eq : α → α → Bool) (f : α → β)
    (h : ∀ x y, eq x y = true ↔ f x = f y) (xs ys : List α) :
    vector_eq eq xs ys = true ↔ xs.map f = ys.map f := by
  induction xs generalizing ys with
  | nil => cases ys <;> simp [vector_eq]
  | cons x xs ih =>
    cases ys with
    | nil => simp [vector_eq]
    | cons y ys =>
      have hrec := ih ys
      simp only [vector_eq, Bool.and_eq_true, decide_eq_true_eq] at hrec
      simp only [vector_eq, Bool.and_eq_true, decide_eq_true_eq, List.length_cons,
        List.zip_cons_cons, List.all_cons, List.map_cons, List.cons.injEq, h,
        Nat.succ.injEq, add_left_inj]
      rw [← hrec]
      tauto

theorem Id_eq_iff {T : Kind} (x y : Id T) : x.eq y = true ↔ id x = id y := by
  obtain ⟨m⟩ := x
  obtain ⟨n⟩ := y
  simp [Id.eq]

theorem Location_eq_strip (x y : Location) :
    x.eq y = true ↔ x.WithInteresting false = y.WithInteresting false := by
  obtain ⟨i, f, l, c⟩ := x
  obtain ⟨j, g, m, d⟩ := y
  simp [Location.eq, Location.IsEqualTo, Location.WithInteresting, and_assoc]

theorem Ref_eq_free_strip {T : Kind} (x y : Ref T) :
    Ref.eq_free x y = true ↔
      Ref.mk x.id (x.loc.WithInteresting false) = Ref.mk y.id (y.loc.WithInteresting false) := by
  obtain ⟨⟨m⟩, lx⟩ := x
  obtain ⟨⟨n⟩, ly⟩ := y
  simp [Ref.eq_free, Id.eq, Location_eq_strip]

theorem TypeDefDefinitionData_eq_iff (a b : TypeDefDefinitionData) :
    a.eq b = true ↔
      (a.usr = b.usr ∧ a.short_name = b.short_name ∧ a.qualified_name = b.qualified_name ∧
        a.definition.map (fun l => l.WithInteresting false) =
          b.definition.map (fun l => l.WithInteresting false) ∧
        a.alias_of = b.alias_of ∧ a.parents = b.parents ∧ a.types = b.types ∧
        a.funcs = b.funcs ∧ a.vars = b.vars) := by
  simp only [TypeDefDefinitionData.eq, Bool.and_eq_true, decide_eq_true_eq,
    optional_eq_iff _ _ Location_eq_strip, optional_eq_iff _ _ Id_eq_iff,
    vector_eq_iff _ _ Id_eq_iff, Option.map_id, List.map_id, and_assoc, id_eq]

theorem FuncDefDefinitionData_eq_iff (a b : FuncDefDefinitionData) :
    a.eq b = true ↔
      (a.usr = b.usr ∧ a.short_name = b.short_name ∧ a.qualified_name = b.qualified_name ∧
        a.definition.map (fun l => l.WithInteresting false) =
          b.definition.map (fun l => l.WithInteresting false) ∧
        a.declaring_type = b.declaring_type ∧ a.base = b.base ∧ a.locals = b.locals ∧
        a.callees.map (fun r => Ref.mk r.id (r.loc.WithInteresting false)) =
          b.callees.map (fun r => Ref.mk r.id (r.loc.WithInteresting false))) := by
  simp only [FuncDefDefinitionData.eq, Bool.and_eq_true, decide_eq_true_eq,
    optional_eq_iff _ _ Location_eq_strip, optional_eq_iff _ _ Id_eq_iff,
    vector_eq_iff _ _ Id_eq_iff, vector_eq_iff _ _ Ref_eq_free_strip, Option.map_id,
    List.map_id, and_assoc, id_eq]

theorem VarDefDefinitionData_eq_iff (a b : VarDefDefinitionData) :
    a.eq b = true ↔
      (a.usr = b.usr ∧ a.short_name = b.short_name ∧ a.qualified_name = b.qualified_name ∧
        a.declaration.map (fun l => l.WithInteresting false) =
          b.declaration.map (fun l => l.WithInteresting false) ∧
        a.definition.map (fun l => l.WithInteresting false) =
          b.definition.map (fun l => l.WithInteresting false) ∧
        a.variable_type = b.variable_type ∧ a.declaring_type = b.declaring_type) := by
  simp only [VarDefDefinitionData.eq, Bool.and_eq_true, decide_eq_true_eq,
    optional_eq_iff _ _ Location_eq_strip, optional_eq_iff _ _ Id_eq_iff, Option.map_id,
    and_assoc, id_eq]

/-- C15: `operator==` on the three kinds of definition data is an equivalence
relation with `operator!=` its negation, and it is member-wise identity up to
the interesting flags only: the data are equal exactly when all members agree
once the flag of every location (definition, declaration, callee location) is
cleared.  So a difference in the flag of the definition or of a callee is not
seen, and a difference in any other member, or in the id, file, line or column
of a callee, is. -/
theorem DefinitionData_eq_modulo_interesting :
    (∀ a b : TypeDefDefinitionData, a.eq b = true ↔
      (a.usr = b.usr ∧ a.short_name = b.short_name ∧ a.qualified_name = b.qualified_name ∧
        a.definition.map (fun l => l.WithInteresting false) =
          b.definition.map (fun l => l.WithInteresting false) ∧
        a.alias_of = b.alias_of ∧ a.parents = b.parents ∧ a.types = b.types ∧
        a.funcs = b.funcs ∧ a.vars = b.vars)) ∧
    (∀ a b : FuncDefDefinitionData, a.eq b = true ↔
      (a.usr = b.usr ∧ a.short_name = b.short_name ∧ a.qualified_name = b.qualified_name ∧
        a.definition.map (fun l => l.WithInteresting false) =
          b.definition.map (fun l => l.WithInteresting false) ∧
        a.declaring_type = b.declaring_type ∧ a.base = b.base ∧ a.locals = b.locals ∧
        a.callees.map (fun r => Ref.mk r.id (r.loc.WithInteresting false)) =
          b.callees.map (fun r => Ref.mk r.id (r.loc.WithInteresting false)))) ∧
    (∀ a b : VarDefDefinitionData, a.eq b = true ↔
      (a.usr = b.usr ∧ a.short_name = b.short_name ∧ a.qualified_name = b.qualified_name ∧
        a.declaration.map (fun l => l.WithInteresting false) =
          b.declaration.map (fun l => l.WithInteresting false) ∧
        a.definition.map (fun l => l.WithInteresting false) =
          b.definition.map (fun l => l.WithInteresting false) ∧
        a.variable_type = b.variable_type ∧ a.declaring_type = b.declaring_type)) ∧
    ((∀ a : TypeDefDefinitionData, a.eq a = true) ∧
      (∀ a b : TypeDefDefinitionData, a.eq b = true → b.eq a = true) ∧
      (∀ a b c : TypeDefDefinitionData, a.eq b = true → b.eq c = true → a.eq c = true) ∧
      (∀ a b : TypeDefDefinitionData, a.ne b = true ↔ a.eq b = false)) ∧
    ((∀ a : FuncDefDefinitionData, a.eq a = true) ∧
      (∀ a b : FuncDefDefinitionData, a.eq b = true → b.eq a = true) ∧
      (∀ a b c : FuncDefDefinitionData, a.eq b = true → b.eq c = true → a.eq c = true) ∧
      (∀ a b : FuncDefDefinitionData, a.ne b = true ↔ a.eq b = false)) ∧
    ((∀ a : VarDefDefinitionData, a.eq a = true) ∧
      (∀ a b : VarDefDefinitionData, a.eq b = true → b.eq a = true) ∧
      (∀ a b c : VarDefDefinitionData, a.eq b = true → b.eq c = true → a.eq c = true) ∧
      (∀ a b : VarDefDefinitionData, a.ne b = true ↔ a.eq b = false)) ∧
    (∀ (d : FuncDefDefinitionData) (x : Bool),
      ({ d with
          definition := d.definition.map (fun l : Location => l.WithInteresting x) }).eq d =
        true) ∧
    (∀ (d : FuncDefDefinitionData) (x : Bool),
      ({ d with
          callees :=
            d.callees.map (fun r : FuncRef => Ref.mk r.id (r.loc.WithInteresting x)) }).eq d =
        true) ∧
    (∃ a b : FuncDefDefinitionData, a ≠ b ∧ a.eq b = true) := by
  refine ⟨TypeDefDefinitionData_eq_iff, FuncDefDefinitionData_eq_iff,
    VarDefDefinitionData_eq_iff, ?_, ?_, ?_, ?_, ?_, ?_⟩
  · refine ⟨?_, ?_, ?_, ?_⟩
    · intro a
      exact (TypeDefDefinitionData_eq_iff a a).2 ⟨rfl, rfl, rfl, rfl, rfl, rfl, rfl, rfl, rfl⟩
    · intro a b h
      obtain ⟨h1, h2, h3, h4, h5, h6, h7, h8, h9⟩ := (TypeDefDefinitionData_eq_iff a b).1 h
      exact (TypeDefDefinitionData_eq_iff b a).2
        ⟨h1.symm, h2.symm, h3.symm, h4.symm, h5.symm, h6.symm, h7.symm, h8.symm, h9.symm⟩
    · intro a b c hab hbc
      obtain ⟨h1, h2, h3, h4, h5, h6, h7, h8, h9⟩ := (TypeDefDefinitionData_eq_iff a b).1 hab
      obtain ⟨g1, g2, g3, g4, g5, g6, g7, g8, g9⟩ := (TypeDefDefinitionData_eq_iff b c).1 hbc
      exact (TypeDefDefinitionData_eq_iff a c).2
        ⟨h1.trans g1, h2.trans g2, h3.trans g3, h4.trans g4, h5.trans g5, h6.trans g6, h7.trans g7, h8.trans g8, h9.trans g9⟩
    · intro a b
      simp [TypeDefDefinitionData.ne]
  · refine ⟨?_, ?_, ?_, ?_⟩
    · intro a
      exact (FuncDefDefinitionData_eq_iff a a).2 ⟨rfl, rfl, rfl, rfl, rfl, rfl, rfl, rfl⟩
    · intro a b h
      obtain ⟨h1, h2, h3, h4, h5, h6, h7, h8⟩ := (FuncDefDefinitionData_eq_iff a b).1 h
      exact (FuncDefDefinitionData_eq_iff b a).2
        ⟨h1.symm, h2.symm, h3.symm, h4.symm, h5.symm, h6.symm, h7.symm, h8.symm⟩
    · intro a b c hab hbc
      obtain ⟨h1, h2, h3, h4, h5, h6, h7, h8⟩ := (FuncDefDefinitionData_eq_iff a b).1 hab
      obtain ⟨g1, g2, g3, g4, g5, g6, g7, g8⟩ := (FuncDefDefinitionData_eq_iff b c).1 hbc
      exact (FuncDefDefinitionData_eq_iff a c).2
        ⟨h1.trans g1, h2.trans g2, h3.trans g3, h4.trans g4, h5.trans g5, h6.trans g6, h7.trans g7, h8.trans g8⟩
    · intro a b
      simp [FuncDefDefinitionData.ne]
  · refine ⟨?_, ?_, ?_, ?_⟩
    · intro a
      exact (VarDefDefinitionData_eq_iff a a).2 ⟨rfl, rfl, rfl, rfl, rfl, rfl, rfl⟩
    · intro a b h
      obtain ⟨h1, h2, h3, h4, h5, h6, h7⟩ := (VarDefDefinitionData_eq_iff a b).1 h
      exact (VarDefDefinitionData_eq_iff b a).2
        ⟨h1.symm, h2.symm, h3.symm, h4.symm, h5.symm, h6.symm, h7.symm⟩
    · intro a b c hab hbc
      obtain ⟨h1, h2, h3, h4, h5, h6, h7⟩ := (VarDefDefinitionData_eq_iff a b).1 hab
      obtain ⟨g1, g2, g3, g4, g5, g6, g7⟩ := (VarDefDefinitionData_eq_iff b c).1 hbc
      exact (VarDefDefinitionData_eq_iff a c).2
        ⟨h1.trans g1, h2.trans g2, h3.trans g3, h4.trans g4, h5.trans g5, h6.trans g6, h7.trans g7⟩
    · intro a b
      simp [VarDefDefinitionData.ne]
  · intro d x
    refine (FuncDefDefinitionData_eq_iff _ d).2 ⟨rfl, rfl, rfl, ?_, rfl, rfl, rfl, rfl⟩
    cases d.definition <;> rfl
  · intro d x
    refine (FuncDefDefinitionData_eq_iff _ d).2 ⟨rfl, rfl, rfl, rfl, rfl, rfl, rfl, ?_⟩
    simp [List.map_map, Function.comp_def, Location.WithInteresting]
  · exact
      ⟨{ usr := "c:@F@f#", short_name := "f", qualified_name := "f",
          definition := some ⟨true, 1, 2, 3⟩, declaring_type := none, base := none,
          locals := [], callees := [⟨⟨1⟩, ⟨true, 1, 5, 5⟩⟩] },
        { usr := "c:@F@f#", short_name := "f", qualified_name := "f",
          definition := some ⟨false, 1, 2, 3⟩, declaring_type := none, base := none,
          locals := [], callees := [⟨⟨1⟩, ⟨false, 1, 5, 5⟩⟩] },
        by decide, by decide⟩

/-- On two function definitions that differ only in the flag of a callee
location, equality holds in both directions; and a callee on another line
makes them unequal, for C15. -/
theorem DefinitionData_eq_modulo_interesting_witness :
    (({ usr := "c:@F@g#", short_name := "g", qualified_name := "g", definition := none,
        declaring_type := none, base := none, locals := [],
        callees := [⟨⟨2⟩, ⟨false, 1, 5, 5⟩⟩] } : FuncDefDefinitionData).eq
      { usr := "c:@F@g#", short_name := "g", qualified_name := "g", definition := none,
        declaring_type := none, base := none, locals := [],
        callees := [⟨⟨2⟩, ⟨true, 1, 5, 5⟩⟩] } = true) ∧
    (({ usr := "c:@F@g#", short_name := "g", qualified_name := "g", definition := none,
        declaring_type := none, base := none, locals := [],
        callees := [⟨⟨2⟩, ⟨false, 1, 5, 5⟩⟩] } : FuncDefDefinitionData).eq
      { usr := "c:@F@g#", short_name := "g", qualified_name := "g", definition := none,
        declaring_type := none, base := none, locals := [],
        callees := [⟨⟨2⟩, ⟨false, 1, 6, 5⟩⟩] } = false) :=
  ⟨DefinitionData_eq_modulo_interesting.2.2.2.2.1.2.1 _ _ (by decide), by decide⟩

end Indexer
